import Mathlib

/-!
Verification of the pairs-trading performance engine in `app.py`.

The core of the repository is lines 88-104 of `app.py`:

  pair_data = trade_df[trade_df["Pair"] == selected_pair].copy().reset_index(drop=True)
  if pair_data.empty: warning + stop
  pair_data["Cumulative Return"] = pair_data["Net Return"].cumsum()
  pair_data["Equity"] = initial_investment + (initial_investment * pair_data["Cumulative Return"])
  pair_data["Trade Profit"] = initial_investment * pair_data["Net Return"]
  total_net_return_pct = pair_data["Net Return"].sum()
  total_profit_value = initial_investment * total_net_return_pct
  final_equity = initial_investment + total_profit_value
  win_rate = (pair_data["Net Return"] > 0).mean()
  total_trades = len(pair_data)

together with the instrument-level pair filter of lines 73-79.  We embed a
trade table as a `List TradeRecord`, real arithmetic as `ℚ`, and the
Streamlit `st.stop` on an empty selection as an `Except` error.
-/

/-- One row of `trade_df`: the `Pair`, `Stock1`, `Stock2`, `Date` and
`Net Return` columns used by the calculation (dates only order/display). -/
structure TradeRecord where
  pair : String
  stock1 : String
  stock2 : String
  date : Nat
  net_return : ℚ
deriving DecidableEq, Repr

/-- Line 88: `trade_df[trade_df["Pair"] == selected_pair]` - the subsequence
of rows whose `Pair` equals the selected pair, in original order.  The
`reset_index(drop=True)` is the positional indexing of the list itself
(made explicit by `resetIndex` below). -/
def selectPair (trade_df : List TradeRecord) (selected_pair : String) : List TradeRecord :=
  trade_df.filter (fun t => t.pair == selected_pair)

/-- `reset_index(drop=True)`: attach the fresh dense 0-based index. -/
def resetIndex {α : Type} (l : List α) : List (Nat × α) :=
  l.enum

/-- `pandas.Series.cumsum` with an explicit running accumulator. -/
def cumsumAux (acc : ℚ) : List ℚ → List ℚ
  | [] => []
  | x :: xs => (acc + x) :: cumsumAux (acc + x) xs

/-- Line 95: `pair_data["Net Return"].cumsum()`. -/
def cumsum (l : List ℚ) : List ℚ := cumsumAux 0 l

/-- One row of `pair_data` after the derived columns of lines 95-97
have been added. -/
structure EnrichedRow where
  net_return : ℚ
  cumulative_return : ℚ
  equity : ℚ
  trade_profit : ℚ
deriving DecidableEq, Repr

/-- The derived columns of lines 95-97 for one trade, given its running
cumulative return `c`:
`Equity = initial_investment + initial_investment * c` and
`Trade Profit = initial_investment * Net Return`. -/
def enrichRow (initial_investment : ℚ) (t : TradeRecord) (c : ℚ) : EnrichedRow :=
  { net_return := t.net_return
    cumulative_return := c
    equity := initial_investment + initial_investment * c
    trade_profit := initial_investment * t.net_return }

/-- Lines 95-97: the enriched trade sequence, pairing each trade with its
cumulative return and computing the equity and trade-profit columns. -/
def enrich (initial_investment : ℚ) (pair_data : List TradeRecord) : List EnrichedRow :=
  (pair_data.zip (cumsum (pair_data.map TradeRecord.net_return))).map
    (fun p => enrichRow initial_investment p.1 p.2)

/-- The scalar metrics of lines 100-104. -/
structure Summary where
  total_net_return_pct : ℚ
  total_profit_value : ℚ
  final_equity : ℚ
  win_rate : ℚ
  total_trades : Nat
deriving DecidableEq, Repr

/-- Lines 100-104: `total_net_return_pct = sum(Net Return)`,
`total_profit_value = initial_investment * total_net_return_pct`,
`final_equity = initial_investment + total_profit_value`,
`win_rate = (Net Return > 0).mean()` (count of strict wins over length),
`total_trades = len(pair_data)`. -/
def summary (initial_investment : ℚ) (pair_data : List TradeRecord) : Summary :=
  let total_net_return_pct := (pair_data.map TradeRecord.net_return).sum
  let total_profit_value := initial_investment * total_net_return_pct
  { total_net_return_pct := total_net_return_pct
    total_profit_value := total_profit_value
    final_equity := initial_investment + total_profit_value
    win_rate :=
      ((pair_data.filter (fun t => decide (0 < t.net_return))).length : ℚ)
        / (pair_data.length : ℚ)
    total_trades := pair_data.length }

/-- The only failure signalled by the calculation section of `app.py`
(lines 90-92): the selected pair has no trades. -/
inductive CalcError where
  | EmptySelection
deriving DecidableEq, Repr

/-- Lines 88-104 as one pipeline: select the pair's rows, stop with
`EmptySelection` when there are none (lines 90-92), otherwise produce the
enriched sequence and the summary metrics.  The source performs no
validation of `initial_investment`; its only guard is the UI input's
`min_value=1000` on line 62, outside this calculation. -/
def computePair (trade_df : List TradeRecord) (selected_pair : String)
    (initial_investment : ℚ) : Except CalcError (List EnrichedRow × Summary) :=
  let pair_data := selectPair trade_df selected_pair
  if pair_data.isEmpty then
    .error .EmptySelection
  else
    .ok (enrich initial_investment pair_data, summary initial_investment pair_data)

/-- `pandas.Series.unique`: first occurrence of each value, in order;
`seen` accumulates the values already emitted. -/
def uniqueAux (seen : List String) : List String → List String
  | [] => []
  | x :: xs => if x ∈ seen then uniqueAux seen xs else x :: uniqueAux (x :: seen) xs

/-- `pandas.Series.unique` on a column. -/
def uniqueVals (l : List String) : List String := uniqueAux [] l

/-- Lines 73-79: the instrument-level pair filter.  When a stock other than
the literal option `"All"` is selected, the candidate pairs are the `Pair`
values of rows where that stock is `Stock1` or `Stock2`; choosing `"All"`
passes every `Pair` value of the table through. -/
def filteredPairs (trade_df : List TradeRecord) (selected_stock_filter : String) :
    List String :=
  if selected_stock_filter ≠ "All" then
    uniqueVals ((trade_df.filter (fun t =>
      t.stock1 == selected_stock_filter || t.stock2 == selected_stock_filter)).map
        TradeRecord.pair)
  else
    uniqueVals (trade_df.map TradeRecord.pair)

/-- A one-trade table used to instantiate the universally quantified
theorems at concrete inputs. -/
def sampleTrades : List TradeRecord :=
  [{ pair := "A - B", stock1 := "A", stock2 := "B", date := 0, net_return := 1/20 }]

example : cumsum [1/20, -(1/50), 3/100] = [1/20, 3/100, 3/50] := by
  norm_num [cumsum, cumsumAux]

/-! ### Helper lemmas -/

lemma cumsumAux_length (l : List ℚ) : ∀ acc : ℚ, (cumsumAux acc l).length = l.length := by
  induction l with
  | nil => intro acc; rfl
  | cons x xs ih => intro acc; simp [cumsumAux, ih]

lemma cumsum_length (l : List ℚ) : (cumsum l).length = l.length :=
  cumsumAux_length l 0

lemma enrich_length (inv : ℚ) (pd : List TradeRecord) :
    (enrich inv pd).length = pd.length := by
  simp [enrich, List.length_zip, cumsum_length]

lemma cumsumAux_get (l : List ℚ) : ∀ (acc : ℚ) (i : Nat)
    (hi : i < (cumsumAux acc l).length),
    (cumsumAux acc l).get ⟨i, hi⟩ = acc + (l.take (i + 1)).sum := by
  induction l with
  | nil => intro acc i hi; simp [cumsumAux] at hi
  | cons x xs ih =>
    intro acc i hi
    cases i with
    | zero => simp [cumsumAux]
    | succ j =>
      have hj : j < (cumsumAux (acc + x) xs).length := by
        simpa [cumsumAux] using hi
      have := ih (acc + x) j hj
      simp only [cumsumAux, List.get_cons_succ, this, List.take_succ_cons,
        List.sum_cons]
      ring

lemma cumsum_get (l : List ℚ) (i : Nat) (hi : i < (cumsum l).length) :
    (cumsum l).get ⟨i, hi⟩ = (l.take (i + 1)).sum := by
  unfold cumsum
  rw [cumsumAux_get]
  ring

lemma enrich_get (inv : ℚ) (pd : List TradeRecord) (i : Nat) (hi : i < pd.length) :
    (enrich inv pd).get ⟨i, by rw [enrich_length]; exact hi⟩ =
      enrichRow inv (pd.get ⟨i, hi⟩)
        (((pd.take (i + 1)).map TradeRecord.net_return).sum) := by
  have hc : i < (cumsum (pd.map TradeRecord.net_return)).length := by
    rw [cumsum_length, List.length_map]; exact hi
  have hz : i < (pd.zip (cumsum (pd.map TradeRecord.net_return))).length := by
    rw [List.length_zip, cumsum_length, List.length_map, Nat.min_self]; exact hi
  simp only [enrich, List.get_eq_getElem, List.getElem_map, List.getElem_zip]
  congr 1
  have := cumsum_get (pd.map TradeRecord.net_return) i hc
  simp only [List.get_eq_getElem] at this
  rw [this, ← List.map_take]

lemma enrich_map_cumulative (inv : ℚ) (pd : List TradeRecord) :
    (enrich inv pd).map EnrichedRow.cumulative_return
      = cumsum (pd.map TradeRecord.net_return) := by
  unfold enrich
  rw [List.map_map]
  have h : (EnrichedRow.cumulative_return ∘ fun p : TradeRecord × ℚ =>
      enrichRow inv p.1 p.2) = Prod.snd := rfl
  rw [h]
  exact List.map_snd_zip _ _ (by rw [cumsum_length, List.length_map])

lemma enrich_map_profit (inv : ℚ) (pd : List TradeRecord) :
    (enrich inv pd).map EnrichedRow.trade_profit
      = pd.map (fun t => inv * t.net_return) := by
  unfold enrich
  rw [List.map_map]
  have h : (EnrichedRow.trade_profit ∘ fun p : TradeRecord × ℚ =>
      enrichRow inv p.1 p.2) = (fun t : TradeRecord => inv * t.net_return) ∘ Prod.fst := rfl
  rw [h, ← List.map_map]
  rw [List.map_fst_zip _ _ (by rw [cumsum_length, List.length_map])]

lemma cumsumAux_getLast? (l : List ℚ) (h : l ≠ []) :
    ∀ acc : ℚ, (cumsumAux acc l).getLast? = some (acc + l.sum) := by
  induction l with
  | nil => exact absurd rfl h
  | cons x xs ih =>
    intro acc
    cases xs with
    | nil => simp [cumsumAux]
    | cons y ys =>
      have := ih (by simp) (acc + x)
      simp only [cumsumAux] at this ⊢
      rw [List.getLast?_cons_cons, this]
      simp only [List.sum_cons]
      ring_nf

lemma cumsum_getLast? (l : List ℚ) (h : l ≠ []) :
    (cumsum l).getLast? = some l.sum := by
  unfold cumsum
  rw [cumsumAux_getLast? l h 0, zero_add]

lemma mem_uniqueAux (x : String) : ∀ (l seen : List String),
    x ∈ uniqueAux seen l ↔ (x ∈ l ∧ x ∉ seen) := by
  intro l
  induction l with
  | nil => intro seen; simp [uniqueAux]
  | cons y ys ih =>
    intro seen
    by_cases hy : y ∈ seen
    · rw [uniqueAux, if_pos hy, ih]
      constructor
      · rintro ⟨h1, h2⟩; exact ⟨List.mem_cons_of_mem _ h1, h2⟩
      · rintro ⟨h1, h2⟩
        rcases List.mem_cons.mp h1 with rfl | h1
        · exact absurd hy h2
        · exact ⟨h1, h2⟩
    · rw [uniqueAux, if_neg hy, List.mem_cons, ih]
      by_cases hxy : x = y
      · subst hxy; simp [hy]
      · simp [hxy, List.mem_cons]

lemma mem_uniqueVals (x : String) (l : List String) : x ∈ uniqueVals l ↔ x ∈ l := by
  rw [uniqueVals, mem_uniqueAux]
  simp

/-! ### Claim theorems -/

/-- Claim C1, counterexample: the calculation section of `app.py` performs no
validation of the investment amount, so with `investment = -500` and a
non-empty trade selection the computation proceeds to a successful result
instead of raising an `InvalidInvestment` error. -/
theorem C1_counterexample :
    (computePair sampleTrades "A - B" (-500)).isOk = true := by
  rfl

/-- Claim C1, amended: for every trade table, pair with a non-empty selection
and arbitrary investment amount (including non-positive values such as
`-500`), `computePair` succeeds; the calculator itself performs no investment
validation, the only constraint being the UI-level minimum. -/
theorem C1_amended (trade_df : List TradeRecord) (p : String) (inv : ℚ)
    (h : selectPair trade_df p ≠ []) :
    computePair trade_df p inv =
      Except.ok (enrich inv (selectPair trade_df p),
        summary inv (selectPair trade_df p)) := by
  have hfalse : (selectPair trade_df p).isEmpty = false := by
    simpa [List.isEmpty_iff] using h
  simp [computePair, hfalse]

/-- Witness for `C1_amended` at the concrete input of the claim's scenario:
a one-trade table, its pair, and investment `-500`. -/
theorem C1_amended_witness :
    computePair sampleTrades "A - B" (-500) =
      Except.ok (enrich (-500) (selectPair sampleTrades "A - B"),
        summary (-500) (selectPair sampleTrades "A - B")) :=
  C1_amended sampleTrades "A - B" (-500) (by simp [selectPair, sampleTrades])

/-- Claim C2: when the selected pair's trade subset is empty, the pipeline
signals `EmptySelection` and halts before any calculation; it never returns
a (zero-valued or otherwise) successful result. -/
theorem C2_empty_selection (trade_df : List TradeRecord) (p : String) (inv : ℚ)
    (h : selectPair trade_df p = []) :
    computePair trade_df p inv = Except.error CalcError.EmptySelection ∧
      ∀ out, computePair trade_df p inv ≠ Except.ok out := by
  have herr : computePair trade_df p inv = Except.error CalcError.EmptySelection := by
    simp [computePair, h]
  exact ⟨herr, fun out hout => by rw [herr] at hout; exact Except.noConfusion hout⟩

/-- Witness for `C2_empty_selection`: a pair id absent from the table. -/
theorem C2_empty_selection_witness :
    computePair sampleTrades "X - Y" 100000 = Except.error CalcError.EmptySelection ∧
      ∀ out, computePair sampleTrades "X - Y" 100000 ≠ Except.ok out :=
  C2_empty_selection sampleTrades "X - Y" 100000 (by simp [selectPair, sampleTrades])

/-- Claim C3: in the enriched sequence, `cumulative_return` at index `i` is
the additive running sum of `net_return` over trades `0..i`, and the
summary's `total_net_return_pct` equals the final value of that running
accumulator (the last `cumulative_return`). -/
theorem C3_cumulative_return (inv : ℚ) (pd : List TradeRecord) (hne : pd ≠ []) :
    (∀ (i : Nat) (hi : i < pd.length),
        ((enrich inv pd).get ⟨i, by rw [enrich_length]; exact hi⟩).cumulative_return
          = ((pd.take (i + 1)).map TradeRecord.net_return).sum) ∧
      ((enrich inv pd).map EnrichedRow.cumulative_return).getLast?
        = some ((summary inv pd).total_net_return_pct) := by
  constructor
  · intro i hi
    rw [enrich_get inv pd i hi]
    rfl
  · rw [enrich_map_cumulative, cumsum_getLast? _ (by simpa using hne)]
    rfl

/-- Witness for `C3_cumulative_return` on the one-trade sample table. -/
theorem C3_cumulative_return_witness :
    ((enrich 100000 sampleTrades).get
        ⟨0, by rw [enrich_length]; simp [sampleTrades]⟩).cumulative_return
      = ((sampleTrades.take 1).map TradeRecord.net_return).sum :=
  (C3_cumulative_return 100000 sampleTrades (by simp [sampleTrades])).1 0
    (by simp [sampleTrades])

/-- Claim C4: in the enriched sequence, every row satisfies
`equity = investment * (1 + cumulative_return)`. -/
theorem C4_equity (inv : ℚ) (pd : List TradeRecord) (hinv : 0 < inv)
    (hne : pd ≠ []) (i : Nat) (hi : i < pd.length) :
    ((enrich inv pd).get ⟨i, by rw [enrich_length]; exact hi⟩).equity
      = inv * (1 + ((enrich inv pd).get
          ⟨i, by rw [enrich_length]; exact hi⟩).cumulative_return) := by
  rw [enrich_get inv pd i hi]
  simp only [enrichRow]
  ring

/-- Witness for `C4_equity` on the one-trade sample table. -/
theorem C4_equity_witness :
    ((enrich 100000 sampleTrades).get
        ⟨0, by rw [enrich_length]; simp [sampleTrades]⟩).equity
      = 100000 * (1 + ((enrich 100000 sampleTrades).get
          ⟨0, by rw [enrich_length]; simp [sampleTrades]⟩).cumulative_return) :=
  C4_equity 100000 sampleTrades (by norm_num) (by simp [sampleTrades]) 0
    (by simp [sampleTrades])

/-- Claim C5: the summary's `total_net_return_pct` is the sum of all
`net_return` values and `final_equity = investment + investment *
total_net_return_pct`. -/
theorem C5_summary_totals (inv : ℚ) (pd : List TradeRecord) (hinv : 0 < inv)
    (hne : pd ≠ []) :
    (summary inv pd).total_net_return_pct = (pd.map TradeRecord.net_return).sum ∧
      (summary inv pd).final_equity
        = inv + inv * (summary inv pd).total_net_return_pct := by
  exact ⟨rfl, rfl⟩

/-- Witness for `C5_summary_totals` on the one-trade sample table. -/
theorem C5_summary_totals_witness :
    (summary 100000 sampleTrades).total_net_return_pct
        = (sampleTrades.map TradeRecord.net_return).sum ∧
      (summary 100000 sampleTrades).final_equity
        = 100000 + 100000 * (summary 100000 sampleTrades).total_net_return_pct :=
  C5_summary_totals 100000 sampleTrades (by norm_num) (by simp [sampleTrades])

/-- Claim C6: `win_rate` is the fraction of trades with strictly positive
`net_return` (so a zero-return trade is non-winning), an all-losing sequence
yields `0` and an all-winning sequence yields `1`. -/
theorem C6_win_rate (inv : ℚ) (pd : List TradeRecord) (hne : pd ≠ []) :
    (summary inv pd).win_rate
        = ((pd.countP (fun t => decide (0 < t.net_return)) : ℚ) / (pd.length : ℚ)) ∧
      ((∀ t ∈ pd, t.net_return ≤ 0) → (summary inv pd).win_rate = 0) ∧
      ((∀ t ∈ pd, 0 < t.net_return) → (summary inv pd).win_rate = 1) := by
  refine ⟨?_, ?_, ?_⟩
  · simp [summary, List.countP_eq_length_filter]
  · intro h
    have hnil : pd.filter (fun t => decide (0 < t.net_return)) = [] := by
      rw [List.filter_eq_nil_iff]
      intro t ht
      simpa using not_lt.mpr (h t ht)
    simp [summary, hnil]
  · intro h
    have hall : pd.filter (fun t => decide (0 < t.net_return)) = pd := by
      rw [List.filter_eq_self]
      intro t ht
      simpa using h t ht
    have hlen0 : pd.length ≠ 0 := by simpa [List.length_eq_zero] using hne
    have hlen : (pd.length : ℚ) ≠ 0 := Nat.cast_ne_zero.mpr hlen0
    simp [summary, hall, div_self hlen]

/-- Witness for `C6_win_rate`: its all-winning branch on the sample table. -/
theorem C6_win_rate_witness : (summary 100000 sampleTrades).win_rate = 1 :=
  (C6_win_rate 100000 sampleTrades (by simp [sampleTrades])).2.2
    (by intro t ht; simp [sampleTrades] at ht; rw [ht]; norm_num)

/-- Claim C7: the Trade Selector returns exactly the rows whose pair equals
the argument, as an order-preserving subsequence, containing each matching
row with its original multiplicity; `reset_index(drop=True)` gives the
selection the fresh dense 0-based index `0, 1, ...` without changing the
rows. -/
theorem C7_selector (trade_df : List TradeRecord) (p : String) :
    (selectPair trade_df p).Sublist trade_df ∧
      (∀ t, t ∈ selectPair trade_df p ↔ (t ∈ trade_df ∧ t.pair = p)) ∧
      (∀ t : TradeRecord, t.pair = p →
        (selectPair trade_df p).count t = trade_df.count t) ∧
      (resetIndex (selectPair trade_df p)).map Prod.fst
          = List.range (selectPair trade_df p).length ∧
      (resetIndex (selectPair trade_df p)).map Prod.snd = selectPair trade_df p := by
  refine ⟨List.filter_sublist _, ?_, ?_, ?_, ?_⟩
  · intro t
    simp [selectPair, List.mem_filter]
  · intro t ht
    rw [selectPair, List.count_filter]
    simpa using ht
  · simp [resetIndex, List.enum_map_fst]
  · simp [resetIndex, List.enum_map_snd]

/-- Witness for `C7_selector`: the multiplicity conjunct instantiated on the
sample table at its own row. -/
theorem C7_selector_witness :
    (selectPair sampleTrades "A - B").count
        { pair := "A - B", stock1 := "A", stock2 := "B", date := 0,
          net_return := 1/20 }
      = sampleTrades.count
        { pair := "A - B", stock1 := "A", stock2 := "B", date := 0,
          net_return := 1/20 } :=
  (C7_selector sampleTrades "A - B").2.2.1 _ rfl

/-- Claim C8: for a stock other than the literal `"All"` option, the
instrument filter yields exactly the pair ids of rows where that stock is
either side of the pair; selecting `"All"` passes every pair id of the
table through. -/
theorem C8_instrument_filter (trade_df : List TradeRecord) (stock p : String)
    (h : stock ≠ "All") :
    (p ∈ filteredPairs trade_df stock ↔
        ∃ t ∈ trade_df, t.pair = p ∧ (t.stock1 = stock ∨ t.stock2 = stock)) ∧
      (p ∈ filteredPairs trade_df "All" ↔ ∃ t ∈ trade_df, t.pair = p) := by
  constructor
  · rw [filteredPairs, if_pos h, mem_uniqueVals]
    simp only [List.mem_map, List.mem_filter, Bool.or_eq_true, beq_iff_eq]
    constructor
    · rintro ⟨t, ⟨ht, hs⟩, hp⟩
      exact ⟨t, ht, hp, hs⟩
    · rintro ⟨t, ht, hp, hs⟩
      exact ⟨t, ⟨ht, hs⟩, hp⟩
  · rw [filteredPairs, if_neg (by simp), mem_uniqueVals]
    simp [List.mem_map]

/-- Witness for `C8_instrument_filter` on the sample table with stock `"A"`. -/
theorem C8_instrument_filter_witness :
    ("A - B" ∈ filteredPairs sampleTrades "A" ↔
        ∃ t ∈ sampleTrades, t.pair = "A - B" ∧
          (t.stock1 = "A" ∨ t.stock2 = "A")) ∧
      ("A - B" ∈ filteredPairs sampleTrades "All" ↔
        ∃ t ∈ sampleTrades, t.pair = "A - B") :=
  C8_instrument_filter sampleTrades "A" "A - B" (by decide)

/-- Claim C9: `win_rate` does not depend on the investment amount: two runs
of the summary with different positive investments agree on `win_rate`. -/
theorem C9_win_rate_invariant (pd : List TradeRecord) (inv1 inv2 : ℚ)
    (hne : pd ≠ []) (h1 : 0 < inv1) (h2 : 0 < inv2) :
    (summary inv1 pd).win_rate = (summary inv2 pd).win_rate := rfl

/-- Witness for `C9_win_rate_invariant` with investments `1000` and `100000`. -/
theorem C9_win_rate_invariant_witness :
    (summary 1000 sampleTrades).win_rate = (summary 100000 sampleTrades).win_rate :=
  C9_win_rate_invariant sampleTrades 1000 100000 (by simp [sampleTrades])
    (by norm_num) (by norm_num)

/-- Claim C10: the per-trade profits sum to `total_profit_value`, which in
turn equals `final_equity` minus the investment. -/
theorem C10_profit_partition (inv : ℚ) (pd : List TradeRecord)
    (hinv : 0 < inv) (hne : pd ≠ []) :
    ((enrich inv pd).map EnrichedRow.trade_profit).sum
        = (summary inv pd).total_profit_value ∧
      (summary inv pd).total_profit_value
        = (summary inv pd).final_equity - inv := by
  constructor
  · rw [enrich_map_profit]
    exact List.sum_map_mul_left pd TradeRecord.net_return inv
  · show inv * (pd.map TradeRecord.net_return).sum
        = (inv + inv * (pd.map TradeRecord.net_return).sum) - inv
    ring

/-- Witness for `C10_profit_partition` on the one-trade sample table. -/
theorem C10_profit_partition_witness :
    ((enrich 100000 sampleTrades).map EnrichedRow.trade_profit).sum
        = (summary 100000 sampleTrades).total_profit_value ∧
      (summary 100000 sampleTrades).total_profit_value
        = (summary 100000 sampleTrades).final_equity - 100000 :=
  C10_profit_partition 100000 sampleTrades (by norm_num) (by simp [sampleTrades])
